import Mathlib

/-!
Shallow embedding of src/src/google/appengine/api/modules/modules.py.

The module under study is a thin client over a remote administrative REST
API.  The embedding models:
  - the exception taxonomy (class hierarchy flattened to one inductive);
  - HTTP-status-to-exception translation (function raise_error,
    embedding the source function of the same name, plus the extra 404
    handling at each call site);
  - identity resolution from environment variables
    (get_current_module_name, get_current_version_name,
    get_current_instance_id), with the environment modelled as a partial
    map from variable names to string values;
  - the default-version selection scan in get_default_version, with the
    allocation dict modelled as an association list in iteration order and
    the float weights modelled as rationals (the source only compares
    weights, never does arithmetic on them, so rationals are exact);
  - get_num_instances response handling;
  - the mutating operations set_num_instances, start_version and
    stop_version together with their async forms, with the remote patch
    endpoint modelled as an oracle from requests to HTTP outcomes and the
    locally observable effects (project-id resolution, thread start,
    network call) recorded as an explicit trace.

Python truthiness on optional strings (None and the empty string are
falsy) is modelled by pyTruthy; a raised Python exception is an error
value of the Except monad.  Python string comparison (lexicographic by
code point) is modelled by the executable pyStrLt, proved equivalent to
the Mathlib linear order on String.
-/

namespace Modules

/-- The exception taxonomy of the module: the six exception classes the
source declares, plus the built-in Python exceptions its code can raise
(TypeError from the isinstance check and from comparing a string against
None, KeyError from a mandatory environment lookup, AttributeError and
IndexError from project-id parsing).  InvalidModuleError carries the
module name interpolated into its message by the source. -/
inductive PyExc where
  | baseError
  | invalidModuleError (module : String)
  | invalidVersionError
  | invalidInstancesError
  | unexpectedStateError
  | transientError
  | typeError
  | keyError
  | attributeError
  | indexError
deriving DecidableEq, Repr

instance {ε α : Type} [DecidableEq ε] [DecidableEq α] : DecidableEq (Except ε α) :=
  fun a b =>
  match a, b with
  | .ok x, .ok y =>
    match decEq x y with
    | isTrue h => isTrue (by rw [h])
    | isFalse h => isFalse (by intro hh; injection hh; contradiction)
  | .error x, .error y =>
    match decEq x y with
    | isTrue h => isTrue (by rw [h])
    | isFalse h => isFalse (by intro hh; injection hh; contradiction)
  | .ok _, .error _ => isFalse (by intro hh; injection hh)
  | .error _, .ok _ => isFalse (by intro hh; injection hh)

/-- A process environment: a partial map from variable names to values. -/
def Env : Type := String → Option String

/-- Python truthiness of an optional string: None and the empty string
are falsy, every other string is truthy. -/
def pyTruthy : Option String → Bool
  | none => false
  | some s => s ≠ ""

/-- Executable model of Python string comparison on character lists:
lexicographic by code point, a strict prefix being smaller. -/
def pyCharsLt : List Char → List Char → Bool
  | _, [] => false
  | [], _ :: _ => true
  | c :: cs, d :: ds =>
    if c < d then true else if d < c then false else pyCharsLt cs ds

/-- Executable model of Python string comparison on strings. -/
def pyStrLt (a b : String) : Bool :=
  pyCharsLt a.toList b.toList

/-- The executable comparison agrees with lexicographic order on
character lists. -/
theorem pyCharsLt_iff_lex :
    ∀ as bs : List Char, pyCharsLt as bs = true ↔ List.Lex (· < ·) as bs := by
  intro as
  induction as with
  | nil =>
    intro bs
    cases bs with
    | nil => simp [pyCharsLt]
    | cons d ds => simp [pyCharsLt]; exact List.Lex.nil
  | cons c cs ih =>
    intro bs
    cases bs with
    | nil => simp [pyCharsLt]
    | cons d ds =>
      by_cases hcd : c < d
      · simp only [pyCharsLt, if_pos hcd]
        exact iff_of_true trivial (List.Lex.rel hcd)
      · by_cases hdc : d < c
        · simp only [pyCharsLt, if_neg hcd, if_pos hdc]
          constructor
          · intro h; cases h
          · intro h
            cases h with
            | cons _ => exact absurd hdc (lt_irrefl _)
            | rel h => exact absurd h hcd
        · have heq : c = d := le_antisymm (not_lt.mp hdc) (not_lt.mp hcd)
          subst heq
          simp only [pyCharsLt, if_neg hcd, if_neg hdc]
          rw [ih ds]
          constructor
          · intro h; exact List.Lex.cons h
          · intro h
            cases h with
            | cons h => exact h
            | rel h => exact absurd h (lt_irrefl _)

/-- The executable comparison agrees with the Mathlib order on String. -/
theorem pyStrLt_iff (a b : String) : pyStrLt a b = true ↔ a < b := by
  rw [String.lt_iff_toList_lt]
  exact pyCharsLt_iff_lex a.toList b.toList

/-- Embedding of the source function raise_error: translates the HTTP
status of a failed request to the exception the module raises.  In the
source it is only reached for non-2xx statuses (HttpError). -/
def raise_error (status : Nat) : PyExc :=
  if status = 400 then .invalidInstancesError
  else if status = 404 then .invalidVersionError
  else if 500 ≤ status then .transientError
  else .baseError

/-- Embedding of get_current_module_name: the primary variable
GAE_SERVICE if truthy, else whatever CURRENT_MODULE_ID holds. -/
def get_current_module_name (env : Env) : Option String :=
  let primary := env "GAE_SERVICE"
  if pyTruthy primary then primary else env "CURRENT_MODULE_ID"

/-- Embedding of the Python expression s.split(sep)[0] for a one-char
separator: the prefix of s before the first occurrence of the separator,
the whole of s when the separator does not occur. -/
def splitHead (sep : Char) (s : String) : String :=
  ⟨s.toList.takeWhile (fun c => c ≠ sep)⟩

/-- Embedding of get_current_version_name: the primary variable
GAE_VERSION if truthy; otherwise the substring of CURRENT_VERSION_ID
before the first dot, with the literal string None normalized to an
absent value.  The fallback indexes the environment directly, so a
missing CURRENT_VERSION_ID raises KeyError. -/
def get_current_version_name (env : Env) : Except PyExc (Option String) :=
  let primary := env "GAE_VERSION"
  if pyTruthy primary then .ok primary
  else
    match env "CURRENT_VERSION_ID" with
    | none => .error .keyError
    | some cvid =>
      let result := splitHead '.' cvid
      .ok (if result = "None" then none else some result)

/-- Embedding of get_current_instance_id: the primary variable
GAE_INSTANCE if truthy, else whatever INSTANCE_ID holds. -/
def get_current_instance_id (env : Env) : Option String :=
  let primary := env "GAE_INSTANCE"
  if pyTruthy primary then primary else env "INSTANCE_ID"

/-- Embedding of the traffic-split scan inside get_default_version.  The
allocation dict is an association list of (version name, weight) pairs in
iteration order; maxAlloc and retVersion are the loop state.  A weight of
exactly 1.0 wins immediately; a strictly larger weight replaces the
winner; a weight tying maxAlloc keeps the lexicographically smaller name
(comparing a name against retVersion = None raises TypeError, as the
Python comparison does). -/
def defaultVersionLoop :
    List (String × ℚ) → ℚ → Option String → Except PyExc (Option String)
  | [], _, retVersion => .ok retVersion
  | (version, allocation) :: rest, maxAlloc, retVersion =>
    if allocation = 1 then .ok (some version)
    else if maxAlloc < allocation then
      defaultVersionLoop rest allocation (some version)
    else if allocation = maxAlloc then
      match retVersion with
      | none => .error .typeError
      | some r =>
        defaultVersionLoop rest maxAlloc (some (if pyStrLt version r then version else r))
    else
      defaultVersionLoop rest maxAlloc retVersion

/-- The split field of a service resource: its allocations dict may be
absent. -/
structure SplitResponse where
  allocations : Option (List (String × ℚ))
deriving DecidableEq

/-- A service resource as returned by the admin API service-get request:
the split field may be absent. -/
structure ServiceResponse where
  split : Option SplitResponse
deriving DecidableEq

/-- Embedding of get_default_version after its module argument has been
resolved: fetch is the outcome of the service-get request (an HTTP error
status or a response).  A 404 raises InvalidModuleError for the requested
module; other failures go through raise_error.  On success the allocation
scan runs when the dict is present and non-empty, and a still-absent
winner raises InvalidVersionError. -/
def get_default_version (module : String) (fetch : Except Nat ServiceResponse) :
    Except PyExc String :=
  match fetch with
  | .error status =>
    if status = 404 then .error (.invalidModuleError module)
    else .error (raise_error status)
  | .ok response =>
    let allocations := (response.split.getD ⟨none⟩).allocations
    let scanned : Except PyExc (Option String) :=
      match allocations with
      | none => .ok none
      | some l => if l.isEmpty then .ok none else defaultVersionLoop l (-1) none
    match scanned with
    | .error e => .error e
    | .ok none => .error .invalidVersionError
    | .ok (some v) => .ok v

/-- If some remaining entry has weight exactly 1, the scan short-circuits
and returns a version whose weight is 1, provided all weights are
nonnegative and the running state is consistent (an absent winner only
occurs while maxAlloc is still the initial -1, so no entry can tie it). -/
lemma defaultVersionLoop_weight_one :
    ∀ (l : List (String × ℚ)) (m : ℚ) (r : Option String),
      (∀ p ∈ l, 0 ≤ p.2) → (r = none → m < 0) → (∃ p ∈ l, p.2 = 1) →
      ∃ v, defaultVersionLoop l m r = .ok (some v) ∧ (v, (1 : ℚ)) ∈ l := by
  intro l
  induction l with
  | nil =>
    intro m r _ _ h1
    obtain ⟨p, hp, _⟩ := h1
    exact absurd hp (List.not_mem_nil p)
  | cons hd rest ih =>
    intro m r hw hr h1
    obtain ⟨v₀, a₀⟩ := hd
    by_cases ha1 : a₀ = 1
    · refine ⟨v₀, ?_, ?_⟩
      · simp only [defaultVersionLoop, if_pos ha1]
      · subst ha1; exact List.mem_cons_self _ _
    · have h1' : ∃ p ∈ rest, p.2 = 1 := by
        obtain ⟨p, hp, hp1⟩ := h1
        rcases List.mem_cons.mp hp with heq | hmem
        · rw [heq] at hp1; exact absurd hp1 ha1
        · exact ⟨p, hmem, hp1⟩
      have hw' : ∀ p ∈ rest, 0 ≤ p.2 := fun p hp => hw p (List.mem_cons_of_mem _ hp)
      by_cases hgt : m < a₀
      · obtain ⟨v, heq, hmem⟩ :=
          ih a₀ (some v₀) hw' (fun h => nomatch h) h1'
        refine ⟨v, ?_, List.mem_cons_of_mem _ hmem⟩
        simp only [defaultVersionLoop, if_neg ha1, if_pos hgt]
        exact heq
      · by_cases htie : a₀ = m
        · rcases r with _ | rr
          · exfalso
            have hm0 : m < 0 := hr rfl
            have : (0 : ℚ) ≤ a₀ := hw _ (List.mem_cons_self _ _)
            exact absurd (htie ▸ this) (not_le.mpr hm0)
          · obtain ⟨v, heq, hmem⟩ :=
              ih m (some (if pyStrLt v₀ rr then v₀ else rr)) hw'
                (fun h => nomatch h) h1'
            refine ⟨v, ?_, List.mem_cons_of_mem _ hmem⟩
            simp only [defaultVersionLoop, if_neg ha1, if_neg hgt, if_pos htie]
            exact heq
        · obtain ⟨v, heq, hmem⟩ := ih m r hw' hr h1'
          refine ⟨v, ?_, List.mem_cons_of_mem _ hmem⟩
          simp only [defaultVersionLoop, if_neg ha1, if_neg hgt, if_neg htie]
          exact heq

/-- Invariant of the scan when no weight equals 1 and a winner r with
running maximum m is already installed: the scan succeeds and returns the
entry of maximum weight, preferring the lexicographically smallest name
on ties (the installed winner counting with weight m and name r). -/
lemma defaultVersionLoop_max_lex :
    ∀ (l : List (String × ℚ)) (m : ℚ) (r : String),
      (∀ p ∈ l, p.2 ≠ 1) →
      ∃ v w, defaultVersionLoop l m (some r) = .ok (some v) ∧
        m ≤ w ∧ (∀ p ∈ l, p.2 ≤ w) ∧
        ((v = r ∧ w = m) ∨ (v, w) ∈ l) ∧
        (w = m → v ≤ r) ∧
        (∀ p ∈ l, p.2 = w → v ≤ p.1) := by
  intro l
  induction l with
  | nil =>
    intro m r _
    exact ⟨r, m, rfl, le_refl m, fun p hp => absurd hp (List.not_mem_nil p),
      Or.inl ⟨rfl, rfl⟩, fun _ => le_refl r, fun p hp => absurd hp (List.not_mem_nil p)⟩
  | cons hd rest ih =>
    intro m r hw
    obtain ⟨v₀, a₀⟩ := hd
    have ha1 : a₀ ≠ 1 := hw _ (List.mem_cons_self _ _)
    have hw' : ∀ p ∈ rest, p.2 ≠ 1 := fun p hp => hw p (List.mem_cons_of_mem _ hp)
    by_cases hgt : m < a₀
    · obtain ⟨v, w, heq, hmw, hub, hmem, htie, hties⟩ := ih a₀ v₀ hw'
      refine ⟨v, w, ?_, ?_, ?_, ?_, ?_, ?_⟩
      · simp only [defaultVersionLoop, if_neg ha1, if_pos hgt]; exact heq
      · exact le_of_lt (lt_of_lt_of_le hgt hmw)
      · intro p hp
        rcases List.mem_cons.mp hp with he | hm
        · rw [he]; exact hmw
        · exact hub p hm
      · rcases hmem with ⟨hv, hw0⟩ | hm
        · right; rw [hv, hw0]; exact List.mem_cons_self _ _
        · right; exact List.mem_cons_of_mem _ hm
      · intro hwm
        rw [hwm] at hmw
        exact absurd (lt_of_lt_of_le hgt hmw) (lt_irrefl m)
      · intro p hp hpw
        rcases List.mem_cons.mp hp with he | hm
        · rw [he] at hpw ⊢; exact htie hpw.symm
        · exact hties p hm hpw
    · by_cases htie0 : a₀ = m
      · have hminr : (if pyStrLt v₀ r then v₀ else r) ≤ r := by
          by_cases hlt : pyStrLt v₀ r = true
          · rw [if_pos hlt]; exact le_of_lt ((pyStrLt_iff v₀ r).mp hlt)
          · rw [if_neg hlt]
        have hminv : (if pyStrLt v₀ r then v₀ else r) ≤ v₀ := by
          by_cases hlt : pyStrLt v₀ r = true
          · rw [if_pos hlt]
          · rw [if_neg hlt]
            exact not_lt.mp (fun hc => hlt ((pyStrLt_iff v₀ r).mpr hc))
        obtain ⟨v, w, heq, hmw, hub, hmem, htie, hties⟩ :=
          ih m (if pyStrLt v₀ r then v₀ else r) hw'
        refine ⟨v, w, ?_, hmw, ?_, ?_, ?_, ?_⟩
        · simp only [defaultVersionLoop, if_neg ha1, if_neg hgt, if_pos htie0]
          exact heq
        · intro p hp
          rcases List.mem_cons.mp hp with he | hm
          · rw [he]; exact htie0 ▸ hmw
          · exact hub p hm
        · rcases hmem with ⟨hv, hw0⟩ | hm
          · by_cases hlt : pyStrLt v₀ r = true
            · right
              rw [if_pos hlt] at hv
              rw [hv, hw0, ← htie0]
              exact List.mem_cons_self _ _
            · left
              rw [if_neg hlt] at hv
              exact ⟨hv, hw0⟩
          · right; exact List.mem_cons_of_mem _ hm
        · intro hwm
          exact le_trans (htie hwm) hminr
        · intro p hp hpw
          rcases List.mem_cons.mp hp with he | hm
          · rw [he] at hpw ⊢
            have : w = m := by rw [← hpw, htie0]
            exact le_trans (htie this) hminv
          · exact hties p hm hpw
      · obtain ⟨v, w, heq, hmw, hub, hmem, htie, hties⟩ := ih m r hw'
        have ha0m : a₀ < m := lt_of_le_of_ne (not_lt.mp hgt) htie0
        refine ⟨v, w, ?_, hmw, ?_, ?_, htie, ?_⟩
        · simp only [defaultVersionLoop, if_neg ha1, if_neg hgt, if_neg htie0]
          exact heq
        · intro p hp
          rcases List.mem_cons.mp hp with he | hm
          · rw [he]; exact le_of_lt (lt_of_lt_of_le ha0m hmw)
          · exact hub p hm
        · rcases hmem with ⟨hv, hw0⟩ | hm
          · left; exact ⟨hv, hw0⟩
          · right; exact List.mem_cons_of_mem _ hm
        · intro p hp hpw
          rcases List.mem_cons.mp hp with he | hm
          · exfalso
            rw [he] at hpw
            have hw2 : a₀ = w := hpw
            rw [← hw2] at hmw
            exact absurd (lt_of_lt_of_le ha0m hmw) (lt_irrefl a₀)
          · exact hties p hm hpw

/-- Unfolding of get_default_version on a response whose allocation list
is present and non-empty: the result is determined by the scan. -/
lemma get_default_version_cons (module : String) (hd : String × ℚ)
    (tl : List (String × ℚ)) :
    get_default_version module (.ok ⟨some ⟨some (hd :: tl)⟩⟩) =
      match defaultVersionLoop (hd :: tl) (-1) none with
      | .error e => .error e
      | .ok none => .error .invalidVersionError
      | .ok (some v) => .ok v := rfl

/-- C1: for every allocation map (weights in the unit interval, as the
data model prescribes) containing at least one entry of weight exactly
1.0, get_default_version returns the name of a version whose weight is
1.0, whatever the other weights and the iteration order are. -/
theorem default_version_weight_one_wins (module : String) (l : List (String × ℚ))
    (hw : ∀ p ∈ l, 0 ≤ p.2 ∧ p.2 ≤ 1)
    (h1 : ∃ p ∈ l, p.2 = 1) :
    ∃ v, get_default_version module (.ok ⟨some ⟨some l⟩⟩) = .ok v ∧
      (v, (1 : ℚ)) ∈ l := by
  rcases l with _ | ⟨⟨v₀, a₀⟩, rest⟩
  · obtain ⟨p, hp, _⟩ := h1
    exact absurd hp (List.not_mem_nil p)
  obtain ⟨v, heq, hmem⟩ :=
    defaultVersionLoop_weight_one ((v₀, a₀) :: rest) (-1) none
      (fun p hp => (hw p hp).1) (fun _ => by norm_num) h1
  exact ⟨v, by rw [get_default_version_cons, heq], hmem⟩

/-- Witness for C1 at a concrete input: an allocation map in which v1
has weight exactly 1. -/
theorem default_version_weight_one_wins_witness :
    ∃ v, get_default_version "default"
        (.ok ⟨some ⟨some [("v2", mkRat 1 2), ("v1", 1)]⟩⟩) = .ok v ∧
      (v, (1 : ℚ)) ∈ [("v2", mkRat 1 2), ("v1", 1)] :=
  default_version_weight_one_wins "default" _ (by decide) (by decide)

/-- C2: for every non-empty allocation map (weights in the unit interval)
in which no weight equals 1.0, get_default_version returns an entry of
maximum weight, and on ties its name is lexicographically least among the
tied versions. -/
theorem default_version_max_weight_lex_tie (module : String)
    (l : List (String × ℚ)) (hne : l ≠ [])
    (hw : ∀ p ∈ l, 0 ≤ p.2 ∧ p.2 ≤ 1)
    (h1 : ∀ p ∈ l, p.2 ≠ 1) :
    ∃ v w, get_default_version module (.ok ⟨some ⟨some l⟩⟩) = .ok v ∧
      (v, w) ∈ l ∧ (∀ p ∈ l, p.2 ≤ w) ∧ (∀ p ∈ l, p.2 = w → v ≤ p.1) := by
  rcases l with _ | ⟨⟨v₀, a₀⟩, rest⟩
  · exact absurd rfl hne
  have ha1 : a₀ ≠ 1 := h1 _ (List.mem_cons_self _ _)
  have ha0 : (0 : ℚ) ≤ a₀ := (hw _ (List.mem_cons_self _ _)).1
  have hgt : (-1 : ℚ) < a₀ := lt_of_lt_of_le (by norm_num) ha0
  obtain ⟨v, w, heq, hmw, hub, hmem, htie, hties⟩ :=
    defaultVersionLoop_max_lex rest a₀ v₀
      (fun p hp => h1 p (List.mem_cons_of_mem _ hp))
  refine ⟨v, w, ?_, ?_, ?_, ?_⟩
  · rw [get_default_version_cons]
    have hloop : defaultVersionLoop ((v₀, a₀) :: rest) (-1) none = .ok (some v) := by
      simp only [defaultVersionLoop, if_neg ha1, if_pos hgt]
      exact heq
    rw [hloop]
  · rcases hmem with ⟨hv, hw0⟩ | hm
    · rw [hv, hw0]; exact List.mem_cons_self _ _
    · exact List.mem_cons_of_mem _ hm
  · intro p hp
    rcases List.mem_cons.mp hp with he | hm
    · rw [he]; exact hmw
    · exact hub p hm
  · intro p hp hpw
    rcases List.mem_cons.mp hp with he | hm
    · rw [he] at hpw ⊢; exact htie hpw.symm
    · exact hties p hm hpw

/-- Witness for C2 at a concrete input: two versions tied at weight 1/2,
where the lexicographically smaller name v1-stable must win even though
it is iterated second (mirroring the repository test). -/
theorem default_version_max_weight_lex_tie_witness :
    ∃ v w, get_default_version "default"
        (.ok ⟨some ⟨some [("v2-beta", mkRat 1 2), ("v1-stable", mkRat 1 2)]⟩⟩) =
          .ok v ∧
      (v, w) ∈ [("v2-beta", mkRat 1 2), ("v1-stable", mkRat 1 2)] ∧
      (∀ p ∈ [("v2-beta", mkRat 1 2), ("v1-stable", mkRat 1 2)], p.2 ≤ w) ∧
      (∀ p ∈ [("v2-beta", mkRat 1 2), ("v1-stable", mkRat 1 2)], p.2 = w → v ≤ p.1) :=
  default_version_max_weight_lex_tie "default" _ (by decide) (by decide) (by decide)

/-- C3: a response with a missing split field, a missing allocations
dict, or an empty allocations dict makes get_default_version raise
InvalidVersionError. -/
theorem default_version_empty_or_missing_fails (module : String) :
    get_default_version module (.ok ⟨none⟩) = .error .invalidVersionError ∧
    get_default_version module (.ok ⟨some ⟨none⟩⟩) = .error .invalidVersionError ∧
    get_default_version module (.ok ⟨some ⟨some []⟩⟩) = .error .invalidVersionError :=
  ⟨rfl, rfl, rfl⟩

/-- Python: the expression a or b on optional strings (a when truthy,
else b unchanged). -/
def pyOr (a b : Option String) : Option String :=
  if pyTruthy a then a else b

/-- Embedding of the Python expression s.split(sep, 1) for a one-char
separator: at most one split, so one part when the separator is absent
and exactly two parts otherwise. -/
def splitOnce (sep : Char) (s : String) : List String :=
  let pre := s.toList.takeWhile (fun c => c ≠ sep)
  match s.toList.dropWhile (fun c => c ≠ sep) with
  | [] => [⟨pre⟩]
  | _ :: post => [⟨pre⟩, ⟨post⟩]

/-- Embedding of the source function get_project_id (leading underscore
dropped): GAE_PROJECT or GOOGLE_CLOUD_PROJECT when one of them is truthy
(the falsy non-None fallthrough keeps the raw value); only when the
combined value is None is GAE_APPLICATION consulted, whose absence makes
the attribute access on None raise AttributeError and whose lack of a
tilde separator makes the index [1] raise IndexError. -/
def get_project_id (env : Env) : Except PyExc String :=
  let project_id := pyOr (env "GAE_PROJECT") (env "GOOGLE_CLOUD_PROJECT")
  match project_id with
  | some p => .ok p
  | none =>
    match env "GAE_APPLICATION" with
    | none => .error .attributeError
    | some app_id =>
      match (splitOnce '~' app_id)[1]? with
      | some p => .ok p
      | none => .error .indexError

/-- A Python value passed as the instances argument. -/
inductive PyVal where
  | vint (n : ℤ)
  | vbool (b : Bool)
  | vfloat (q : ℚ)
  | vstr (s : String)
  | vnone
deriving DecidableEq, Repr

/-- Embedding of isinstance(x, six.integer_types): on Python 3 that is
isinstance(x, int), which also accepts booleans (bool is a subclass of
int). -/
def isIntegral : PyVal → Bool
  | .vint _ => true
  | .vbool _ => true
  | _ => false

/-- The body of a version-patch request: either a manual-scaling
instance count or a serving status. -/
inductive PatchBody where
  | manualScalingInstances (instances : PyVal)
  | servingStatus (status : String)
deriving DecidableEq

/-- A version-patch request against the admin API, as built by
admin_api_version_patch: resource coordinates, the update mask and the
body. -/
structure PatchRequest where
  appsId : String
  servicesId : Option String
  versionsId : Option String
  updateMask : String
  body : PatchBody
deriving DecidableEq

/-- Locally observable effects of a mutating operation, in program
order: resolving the project id, starting the background thread, and the
network call that the thread performs. -/
inductive Effect where
  | resolveProject
  | startThread (req : PatchRequest)
  | networkCall (req : PatchRequest)
deriving DecidableEq

/-- Oracle for the remote patch endpoint: success, or the HTTP status of
the failure (the HttpError). -/
def PatchApi : Type := PatchRequest → Except Nat Unit

/-- Embedding of the ThreadedRpc handle: the background thread has run
the request and captured any raised exception. -/
structure ThreadedRpc where
  exception : Option PyExc
deriving DecidableEq

/-- Embedding of ThreadedRpc.get_result: wait for the thread, re-raise a
captured exception, otherwise return None. -/
def ThreadedRpc.get_result (rpc : ThreadedRpc) : Except PyExc Unit :=
  match rpc.exception with
  | some e => .error e
  | none => .ok ()

/-- Embedding of the run_request closures executed by the thread: run
the patch, translating an HTTP failure through raise_error; the raised
exception is captured by the ThreadedRpc. -/
def runPatchThread (api : PatchApi) (req : PatchRequest) : ThreadedRpc :=
  match api req with
  | .ok _ => ⟨none⟩
  | .error status => ⟨some (raise_error status)⟩

/-- Embedding of set_num_instances_async.  Program order as in the
source: first the isinstance check on instances (raising TypeError with
no effect at all), then project-id resolution, then the module and
version defaults (the latter can raise), then the thread starts and
performs the patch. -/
def set_num_instances_async (api : PatchApi) (instances : PyVal)
    (module version : Option String) (env : Env) :
    List Effect × Except PyExc ThreadedRpc :=
  if !isIntegral instances then ([], .error .typeError)
  else
    match get_project_id env with
    | .error e => ([.resolveProject], .error e)
    | .ok project_id =>
      let module := match module with
        | none => get_current_module_name env
        | some m => some m
      match (match version with
             | none => get_current_version_name env
             | some v => Except.ok (some v)) with
      | .error e => ([.resolveProject], .error e)
      | .ok version =>
        let req : PatchRequest :=
          ⟨project_id, module, version, "manualScaling.instances",
            .manualScalingInstances instances⟩
        ([.resolveProject, .startThread req, .networkCall req],
          .ok (runPatchThread api req))

/-- Embedding of set_num_instances: invoke the async form, then
immediately wait for and unwrap its result, exactly as the source
composes them. -/
def set_num_instances (api : PatchApi) (instances : PyVal)
    (module version : Option String) (env : Env) :
    List Effect × Except PyExc Unit :=
  let rpc := set_num_instances_async api instances module version env
  (rpc.1, rpc.2.bind ThreadedRpc.get_result)

/-- Embedding of start_version_async.  Program order as in the source:
module default, version default (which can raise), then project-id
resolution, then the thread starts and performs the patch with
servingStatus SERVING. -/
def start_version_async (api : PatchApi) (module version : Option String)
    (env : Env) : List Effect × Except PyExc ThreadedRpc :=
  let module := match module with
    | none => get_current_module_name env
    | some m => some m
  match (match version with
         | none => get_current_version_name env
         | some v => Except.ok (some v)) with
  | .error e => ([], .error e)
  | .ok version =>
    match get_project_id env with
    | .error e => ([.resolveProject], .error e)
    | .ok project_id =>
      let req : PatchRequest :=
        ⟨project_id, module, version, "servingStatus", .servingStatus "SERVING"⟩
      ([.resolveProject, .startThread req, .networkCall req],
        .ok (runPatchThread api req))

/-- Embedding of start_version: invoke the async form, then immediately
wait for and unwrap its result, exactly as the source composes them. -/
def start_version (api : PatchApi) (module version : Option String)
    (env : Env) : List Effect × Except PyExc Unit :=
  let rpc := start_version_async api module version env
  (rpc.1, rpc.2.bind ThreadedRpc.get_result)

/-- Embedding of stop_version_async: as start_version_async but with
servingStatus STOPPED. -/
def stop_version_async (api : PatchApi) (module version : Option String)
    (env : Env) : List Effect × Except PyExc ThreadedRpc :=
  let module := match module with
    | none => get_current_module_name env
    | some m => some m
  match (match version with
         | none => get_current_version_name env
         | some v => Except.ok (some v)) with
  | .error e => ([], .error e)
  | .ok version =>
    match get_project_id env with
    | .error e => ([.resolveProject], .error e)
    | .ok project_id =>
      let req : PatchRequest :=
        ⟨project_id, module, version, "servingStatus", .servingStatus "STOPPED"⟩
      ([.resolveProject, .startThread req, .networkCall req],
        .ok (runPatchThread api req))

/-- Embedding of stop_version: invoke the async form, then immediately
wait for and unwrap its result, exactly as the source composes them. -/
def stop_version (api : PatchApi) (module version : Option String)
    (env : Env) : List Effect × Except PyExc Unit :=
  let rpc := stop_version_async api module version env
  (rpc.1, rpc.2.bind ThreadedRpc.get_result)

/-- The manualScaling block of a version resource: its instances field
may be absent. -/
structure ManualScalingBlock where
  instances : Option ℤ
deriving DecidableEq

/-- A version resource as returned by the admin API version-get request:
the manualScaling block may be absent. -/
structure VersionResponse where
  manualScaling : Option ManualScalingBlock
deriving DecidableEq

/-- Embedding of the response handling of get_num_instances: fetch is
the outcome of the version-get request.  Any HTTP failure goes through
raise_error; a response carrying manualScaling yields its (possibly
absent) instances count, and one without it yields 0. -/
def get_num_instances (fetch : Except Nat VersionResponse) :
    Except PyExc (Option ℤ) :=
  match fetch with
  | .error status => .error (raise_error status)
  | .ok response =>
    match response.manualScaling with
    | some ms => .ok ms.instances
    | none => .ok (some 0)

/-- Embedding of the Python expression sep.join(parts) for the dot
separator. -/
def joinDots : List String → String
  | [] => ""
  | [s] => s
  | s :: rest => s ++ "." ++ joinDots rest

/-- Embedding of construct_hostname (leading underscore dropped): build
the parts list from the truthy instance, the version, the module and the
default hostname, then join with dots. -/
def construct_hostname (inst : Option String)
    (version module default_hostname : String) : String :=
  let hostname_parts : List String :=
    (match inst with
     | some i => if i = "" then [] else [i]
     | none => []) ++ [version, module, default_hostname]
  joinDots hostname_parts

/-- C4: with the primary version variable absent, a secondary composite
identifier of v3.456 resolves to version v3, and one of None.456
resolves to an absent version. -/
theorem current_version_name_fallback_examples :
    get_current_version_name
        (fun k => if k = "CURRENT_VERSION_ID" then some "v3.456" else none) =
      .ok (some "v3") ∧
    get_current_version_name
        (fun k => if k = "CURRENT_VERSION_ID" then some "None.456" else none) =
      .ok none :=
  ⟨by decide, by decide⟩

/-- C5, counterexample: identity resolution can fail.  In the
environment with every variable absent, get_current_version_name raises
KeyError from the mandatory CURRENT_VERSION_ID lookup, refuting the
claim that the identity getters never raise for every configuration. -/
theorem current_version_name_keyerror_counterexample :
    get_current_version_name (fun _ => none) = .error .keyError := by decide

/-- C5, amended: get_current_module_name and get_current_instance_id are
total functions into optional strings (no error value in their type);
get_current_version_name returns a value or an absent value whenever the
primary variable is truthy or the secondary identifier is present, and
raises KeyError exactly when the primary is falsy and the secondary is
absent. -/
theorem identity_resolution_amended (env : Env) :
    (pyTruthy (env "GAE_VERSION") = true ∨ (∃ c, env "CURRENT_VERSION_ID" = some c) →
      ∃ r, get_current_version_name env = .ok r) ∧
    (pyTruthy (env "GAE_VERSION") = false ∧ env "CURRENT_VERSION_ID" = none →
      get_current_version_name env = .error .keyError) := by
  constructor
  · intro h
    by_cases hv : pyTruthy (env "GAE_VERSION") = true
    · exact ⟨env "GAE_VERSION", by simp [get_current_version_name, hv]⟩
    · rcases h with h | ⟨c, hc⟩
      · exact absurd h hv
      · refine ⟨if splitHead '.' c = "None" then none else some (splitHead '.' c), ?_⟩
        simp [get_current_version_name, hv, hc]
  · rintro ⟨h1, h2⟩
    simp [get_current_version_name, h1, h2]

/-- Witness for the amended C5: one configuration where the secondary
identifier is present (no failure), and the all-absent configuration
(KeyError). -/
theorem identity_resolution_amended_witness :
    (∃ r, get_current_version_name
        (fun k => if k = "CURRENT_VERSION_ID" then some "a.b" else none) = .ok r) ∧
    get_current_version_name (fun _ => none) = .error .keyError :=
  ⟨(identity_resolution_amended
      (fun k => if k = "CURRENT_VERSION_ID" then some "a.b" else none)).1
        (Or.inr ⟨"a.b", by decide⟩),
   (identity_resolution_amended (fun _ => none)).2 ⟨rfl, rfl⟩⟩

/-- C6: hostname construction joins instance (when present and
non-empty), version, module and the fetched default hostname with dot
separators, omitting the instance segment when absent; including the two
concrete examples from the spec. -/
theorem construct_hostname_spec :
    (∀ (i version module default_hostname : String), i ≠ "" →
      construct_hostname (some i) version module default_hostname =
        i ++ "." ++ version ++ "." ++ module ++ "." ++ default_hostname) ∧
    (∀ (version module default_hostname : String),
      construct_hostname none version module default_hostname =
        version ++ "." ++ module ++ "." ++ default_hostname) ∧
    construct_hostname (some "i") "v1" "default" "project.appspot.com" =
      "i.v1.default.project.appspot.com" ∧
    construct_hostname none "v1" "default" "project.appspot.com" =
      "v1.default.project.appspot.com" := by
  refine ⟨?_, ?_, by decide, by decide⟩
  · intro i v m d hi
    simp [construct_hostname, joinDots, hi, String.append_assoc]
  · intro v m d
    simp [construct_hostname, joinDots, String.append_assoc]

/-- Witness for C6 at a concrete non-empty instance discharging the
hypothesis. -/
theorem construct_hostname_spec_witness :
    construct_hostname (some "inst0") "v" "m" "host" =
      "inst0" ++ "." ++ "v" ++ "." ++ "m" ++ "." ++ "host" :=
  construct_hostname_spec.1 "inst0" "v" "m" "host" (by decide)

/-- C7: the HTTP status to exception mapping.  A 404 on the service-get
request raises InvalidModuleError carrying the requested module name; a
404 on the version-get request (get_num_instances) or the version-patch
request (stop_version) raises InvalidVersionError; a 400 on the
instance-count version-patch raises InvalidInstancesError; any status at
least 500 raises TransientError; any other non-2xx status raises the
base Error. -/
theorem http_error_taxonomy :
    (∀ module : String,
      get_default_version module (.error 404) =
        .error (.invalidModuleError module)) ∧
    get_num_instances (.error 404) = .error .invalidVersionError ∧
    (stop_version (fun _ => .error 404) (some "m") (some "v")
        (fun k => if k = "GAE_PROJECT" then some "proj" else none)).2 =
      .error .invalidVersionError ∧
    (set_num_instances (fun _ => .error 400) (.vint 5) (some "m") (some "v")
        (fun k => if k = "GAE_PROJECT" then some "proj" else none)).2 =
      .error .invalidInstancesError ∧
    (∀ status : Nat, 500 ≤ status → raise_error status = .transientError) ∧
    (∀ status : Nat, ¬(200 ≤ status ∧ status ≤ 299) → status ≠ 400 →
      status ≠ 404 → status < 500 → raise_error status = .baseError) := by
  refine ⟨fun module => rfl, rfl, by decide, by decide, ?_, ?_⟩
  · intro s hs
    have h400 : s ≠ 400 := by omega
    have h404 : s ≠ 404 := by omega
    simp [raise_error, h400, h404, hs]
  · intro s _ h400 h404 h500
    simp [raise_error, h400, h404, not_le.mpr h500]

/-- Witness for C7 discharging the status-range hypotheses at concrete
statuses 503 and 401. -/
theorem http_error_taxonomy_witness :
    get_default_version "m1" (.error 404) = .error (.invalidModuleError "m1") ∧
    raise_error 503 = .transientError ∧
    raise_error 401 = .baseError :=
  ⟨http_error_taxonomy.1 "m1",
   http_error_taxonomy.2.2.2.2.1 503 (by norm_num),
   http_error_taxonomy.2.2.2.2.2 401 (by norm_num) (by norm_num) (by norm_num)
     (by norm_num)⟩

/-- C8: a non-integral instances argument makes set_num_instances_async
(and hence set_num_instances) raise TypeError with an empty effect
trace: no project-id resolution, no thread start, no network call. -/
theorem set_num_instances_nonintegral_typeerror (api : PatchApi)
    (instances : PyVal) (module version : Option String) (env : Env)
    (h : isIntegral instances = false) :
    set_num_instances_async api instances module version env =
      ([], .error .typeError) ∧
    set_num_instances api instances module version env =
      ([], .error .typeError) := by
  have hasync : set_num_instances_async api instances module version env
      = ([], .error .typeError) := by
    simp [set_num_instances_async, h]
  exact ⟨hasync, by simp [set_num_instances, hasync, Except.bind]⟩

/-- Witness for C8 at a concrete string argument (mirroring the
repository test with a not-an-int argument). -/
theorem set_num_instances_nonintegral_typeerror_witness :
    set_num_instances_async (fun _ => .ok ()) (.vstr "not-an-int") none none
        (fun _ => none) =
      ([], .error .typeError) ∧
    set_num_instances (fun _ => .ok ()) (.vstr "not-an-int") none none
        (fun _ => none) =
      ([], .error .typeError) :=
  set_num_instances_nonintegral_typeerror _ _ _ _ _ rfl

/-- C9: each synchronous mutating operation equals its asynchronous
counterpart followed immediately by result retrieval on the returned
handle: identical effect traces and identical outcome (the unwrapped
captured exception or success); the sync forms have no independent
implementation. -/
theorem sync_ops_compose_async (api : PatchApi) (instances : PyVal)
    (module version : Option String) (env : Env) :
    set_num_instances api instances module version env =
      ((set_num_instances_async api instances module version env).1,
        (set_num_instances_async api instances module version env).2.bind
          ThreadedRpc.get_result) ∧
    start_version api module version env =
      ((start_version_async api module version env).1,
        (start_version_async api module version env).2.bind
          ThreadedRpc.get_result) ∧
    stop_version api module version env =
      ((stop_version_async api module version env).1,
        (stop_version_async api module version env).2.bind
          ThreadedRpc.get_result) :=
  ⟨rfl, rfl, rfl⟩

/-- C10: a version response without a manualScaling field makes
get_num_instances return 0 rather than raise, and every successful fetch
yields a successful result, so it raises only when the underlying
request itself fails. -/
theorem get_num_instances_no_manual_scaling (resp : VersionResponse)
    (h : resp.manualScaling = none) :
    get_num_instances (.ok resp) = .ok (some 0) ∧
    ∀ r : VersionResponse, ∃ result, get_num_instances (.ok r) = .ok result := by
  constructor
  · simp [get_num_instances, h]
  · intro r
    rcases hr : r.manualScaling with _ | ms
    · exact ⟨some 0, by simp [get_num_instances, hr]⟩
    · exact ⟨ms.instances, by simp [get_num_instances, hr]⟩

/-- Witness for C10 at the concrete automatic-scaling response. -/
theorem get_num_instances_no_manual_scaling_witness :
    get_num_instances (.ok ⟨none⟩) = .ok (some 0) ∧
    ∀ r : VersionResponse, ∃ result, get_num_instances (.ok r) = .ok result :=
  get_num_instances_no_manual_scaling ⟨none⟩ rfl

end Modules
